import Mathlib

/-!
Verification of the configuration merge-and-validate engine of
`configuration.py` (class `Configuration`).

The Python module is embedded shallowly:

* Python 2 scalar values (`int`, `bool`, `unicode`, `str`, `None`) become the
  inductive type `Value`; their runtime types become `PyType`.
* A configuration document (`{key: {"value": v, "settings": {...}}}`) becomes
  an association list `ConfigDoc` of `ConfigEntry`.
* The dynamically-bound attribute namespace of the `Configuration` object
  becomes `Attrs := String → Option Value`; `setattr` becomes `setAttr`.
* Raised exceptions become `Except PyErr`; each `raise` site is given a
  structured constructor carrying exactly the data interpolated into the
  Python message.
* `os.environ` becomes an association list, `getpass.getuser()` and the home
  directory become the fields of `Ctx`, and the file system seen by
  `os.path.exists` / `os.makedirs` becomes a list of existing directories.
* String helpers (`in`, `str.replace`, `str.lower`, `os.path.expanduser`,
  `os.path.join`) are re-implemented structurally on the character lists
  carried by `String`, following the CPython 2.7 implementations.
-/

set_option maxHeartbeats 1000000

namespace Config

/-- Python 2 runtime values occurring in a decoded configuration document.
`vustr` is a `unicode` string (what `json.load` produces for JSON strings);
`vbstr` is a Python 2 byte string (`str`). -/
inductive Value where
  | vint (n : Int)
  | vbool (b : Bool)
  | vustr (s : String)
  | vbstr (s : String)
  | vnone
  deriving DecidableEq

/-- Python runtime types of the values above, as produced by `type(...)`. -/
inductive PyType where
  | tint
  | tbool
  | tustr
  | tbstr
  | tnone
  deriving DecidableEq

/-- `type(v)` for a `Value`. -/
def Value.typeOf : Value → PyType
  | .vint _ => .tint
  | .vbool _ => .tbool
  | .vustr _ => .tustr
  | .vbstr _ => .tbstr
  | .vnone => .tnone

/-- Python's `isinstance(v, t)`: true when `type(v)` is `t` or a subclass of
`t`.  Among the JSON-able scalar types the only proper subclass relation in
Python 2 is `bool <: int`. -/
def Value.isinstance (v : Value) (t : PyType) : Bool :=
  v.typeOf == t || (v.typeOf == .tbool && t == .tint)

/-- Python truthiness (`not v` in the source): zero, `False`, empty strings
and `None` are falsy. -/
def Value.pyFalsy : Value → Bool
  | .vint n => n == 0
  | .vbool b => !b
  | .vustr s => s == ""
  | .vbstr s => s == ""
  | .vnone => true

/-- Python 2 `str(v)`: always yields a byte string (`unicode` is encoded,
assumed ASCII here, so the character content is preserved). -/
def pyStr : Value → Value
  | .vint n => .vbstr (toString n)
  | .vbool b => .vbstr (if b then "True" else "False")
  | .vustr s => .vbstr s
  | .vbstr s => .vbstr s
  | .vnone => .vbstr "None"

/-- The character content of a value usable as a file-system path. -/
def valueStr : Value → Option String
  | .vustr s => some s
  | .vbstr s => some s
  | _ => none

/-- Does `needle` occur at the head of `hay`? (helper for substring scan). -/
def startsWithL : List Char → List Char → Bool
  | _, [] => true
  | [], _ :: _ => false
  | a :: as, b :: bs => a == b && startsWithL as bs

/-- Does `needle` occur anywhere in `hay`? (Python's `needle in hay`). -/
def containsSubL (hay needle : List Char) : Bool :=
  match hay with
  | [] => needle.isEmpty
  | _ :: t => startsWithL hay needle || containsSubL t needle

/-- Python's `sub in s` on strings. -/
def strContains (s sub : String) : Bool := containsSubL s.data sub.data

/-- Python's `s.startswith(t)`. -/
def strStartsWith (s t : String) : Bool := startsWithL s.data t.data

/-- Python's `s.endswith(t)`. -/
def strEndsWith (s t : String) : Bool := startsWithL s.data.reverse t.data.reverse

/-- Python's `s.lower()` (ASCII case folding, as in the source's key names). -/
def strLower (s : String) : String := ⟨s.data.map Char.toLower⟩

/-- Replace every non-overlapping occurrence of `needle` left-to-right
(fuel-indexed structural version of CPython's `str.replace`). -/
def replaceFuel (needle repl : List Char) : Nat → List Char → List Char
  | 0, hay => hay
  | fuel + 1, hay =>
    match hay with
    | [] => []
    | c :: t =>
      if !needle.isEmpty && startsWithL hay needle then
        repl ++ replaceFuel needle repl fuel (hay.drop needle.length)
      else
        c :: replaceFuel needle repl fuel t

/-- Python's `s.replace(needle, repl)`. -/
def strReplace (s needle repl : String) : String :=
  ⟨replaceFuel needle.data repl.data (s.data.length + 1) s.data⟩

/-- Strip trailing slashes (`userhome.rstrip('/')` in `posixpath.expanduser`). -/
def rstripSlash (s : String) : String :=
  ⟨(s.data.reverse.dropWhile (fun c => c == '/')).reverse⟩

/-- Index of the first `'/'` in a character list (list length if absent). -/
def firstSlashIdx : List Char → Nat
  | [] => 0
  | c :: t => if c == '/' then 0 else firstSlashIdx t + 1

/-- CPython 2.7 `posixpath.expanduser`, parameterized by the invoking user's
home directory `home` (the `HOME` lookup) and the password-database lookup
`pwdDir` used for `~user` forms.  Only a leading `~` is ever expanded. -/
def expanduserP (home : String) (pwdDir : String → Option String) (path : String) : String :=
  if strStartsWith path "~" then
    let cs := path.data
    let i := 1 + firstSlashIdx (cs.drop 1)
    let userpart : String := ⟨(cs.drop 1).take (i - 1)⟩
    let tailpart : String := ⟨cs.drop i⟩
    let userhome? : Option String := if i == 1 then some home else pwdDir userpart
    match userhome? with
    | none => path
    | some uh =>
      let r := rstripSlash uh ++ tailpart
      if r = "" then "/" else r
  else path

/-- CPython `posixpath.join` restricted to two components, as used in
`os.path.join(log_path, "Automation_Logs")`. -/
def pathJoin (a b : String) : String :=
  if strStartsWith b "/" then b
  else if a = "" || strEndsWith a "/" then a ++ b
  else a ++ "/" ++ b

/-- The nested `settings` mapping of a configuration entry. -/
abbrev Settings := List (String × Value)

/-- One top-level entry of a configuration document:
`{"value": v, "settings"?: {...}}`. -/
structure ConfigEntry where
  value : Value
  settings : Option Settings
  deriving DecidableEq

/-- A decoded configuration document (`dict` of entries, keyed by name). -/
abbrev ConfigDoc := List (String × ConfigEntry)

/-- The dynamically-bound attribute namespace of the `Configuration` object. -/
abbrev Attrs := String → Option Value

/-- `doc[key]` when present (`key in doc.keys()` / subscript access). -/
def lookupDoc : ConfigDoc → String → Option ConfigEntry
  | [], _ => none
  | (k, e) :: t, key => if k = key then some e else lookupDoc t key

/-- `settings[key]` when present. -/
def lookupS : Settings → String → Option Value
  | [], _ => none
  | (k, v) :: t, key => if k = key then some v else lookupS t key

/-- `setattr(self, k, v)` on the attribute namespace. -/
def setAttr (attrs : Attrs) (k : String) (v : Value) : Attrs :=
  fun n => if n = k then some v else attrs n

/-- The attribute namespace before any configuration attribute is bound. -/
def emptyAttrs : Attrs := fun _ => none

/-- `doc.keys()`, in document order. -/
def docKeys (d : ConfigDoc) : List String := d.map Prod.fst

/-- Ambient process identity: `getpass.getuser()`, the home directory and the
password database consulted by `os.path.expanduser`. -/
structure Ctx where
  username : String
  home : String
  pwdDir : String → Option String

/-- Each `raise` site of the source, with the data its message interpolates.

* `unsupportedKeys diffs supported` — `"{} key is not supported. Supported keys are {}"`
* `typeMismatch key expected` — `"{} is not supported type {}"`
* `missingAttribute a` — `"Required attribute {} is not set"`
* `attributeError a` — Python `AttributeError` from an unguarded `getattr`
* `keyError k` — Python `KeyError` from an unguarded dict subscript
* `typeError a` — Python `TypeError` from `os.path` on a non-string value
-/
inductive PyErr where
  | unsupportedKeys (diffs : List String) (supported : List String)
  | typeMismatch (key : String) (expected : PyType)
  | missingAttribute (attr : String)
  | attributeError (attr : String)
  | keyError (key : String)
  | typeError (attr : String)
  deriving DecidableEq

/-- A `for` loop threading state, in which any iteration may `raise`. -/
def foldE {σ α : Type} (f : σ → α → Except PyErr σ) : σ → List α → Except PyErr σ
  | s, [] => .ok s
  | s, x :: xs =>
    match f s x with
    | .error e => .error e
    | .ok s' => foldE f s' xs

/-- The token-substitution logic of `_set_config_attribute`: scan `["~",
"%USERPROFILE%"]` in order, apply at most one substitution, only on `unicode`
values.  `str(value)` inside both branches turns the result into a byte
string. -/
def resolveValue (ctx : Ctx) (v : Value) : Value :=
  match v with
  | .vustr s =>
    if strContains s "~" then .vbstr (expanduserP ctx.home ctx.pwdDir s)
    else if strContains s "%USERPROFILE%" then
      .vbstr (strReplace s "%USERPROFILE%" ctx.username)
    else .vustr s
  | v => v

/-- `_set_config_attribute(self, key, value)`. -/
def setConfigAttribute (ctx : Ctx) (attrs : Attrs) (key : String) (v : Value) : Attrs :=
  setAttr attrs key (resolveValue ctx v)

/-- `_get_settings_and_value_from_config_json(self, default_key)`: the custom
document wins wholesale per key; otherwise the default entry is used. -/
def getSettingsAndValue (d c : ConfigDoc) (key : String) :
    Except PyErr (Value × Option Settings) :=
  match lookupDoc c key with
  | some ce => .ok (ce.value, ce.settings)
  | none =>
    match lookupDoc d key with
    | some de => .ok (de.value, de.settings)
    | none => .error (.keyError key)

/-- One iteration of the loop in `_set_settings_attributes`: look up the
default's settings sub-value for its type, type-check with `isinstance`,
then bind `lower(key)_lower(settingsKey)`. -/
def processSettingsKey (ctx : Ctx) (d : ConfigDoc) (key : String) (settings : Settings)
    (attrs : Attrs) (sk : String) : Except PyErr Attrs :=
  match lookupDoc d key with
  | none => .error (.keyError key)
  | some de =>
    match de.settings with
    | none => .error (.keyError "settings")
    | some ds =>
      match lookupS ds sk with
      | none => .error (.keyError sk)
      | some dv =>
        match lookupS settings sk with
        | none => .error (.keyError sk)
        | some data =>
          if !data.isinstance dv.typeOf then .error (.typeMismatch key dv.typeOf)
          else .ok (setConfigAttribute ctx attrs (strLower key ++ "_" ++ strLower sk) data)

/-- `_set_settings_attributes(self, settings, default_key)`. -/
def setSettingsAttributes (ctx : Ctx) (d : ConfigDoc) (attrs : Attrs)
    (settings : Settings) (key : String) : Except PyErr Attrs :=
  foldE (processSettingsKey ctx d key settings) attrs (settings.map Prod.fst)

/-- Python truthiness of the `settings` slot (`if settings:`): `None` and the
empty dict are falsy. -/
def settingsTruthy : Option Settings → Bool
  | none => false
  | some s => !s.isEmpty

/-- One iteration of the loop in
`_combine_custom_json_and_default_json_assigning_class_attributes`. -/
def processKey (ctx : Ctx) (d c : ConfigDoc) (attrs : Attrs) (key : String) :
    Except PyErr Attrs :=
  match lookupDoc d key with
  | none => .error (.keyError key)
  | some de =>
    match getSettingsAndValue d c key with
    | .error e => .error e
    | .ok (data, settings) =>
      if !data.isinstance de.value.typeOf then .error (.typeMismatch key de.value.typeOf)
      else
        let attrs1 := setConfigAttribute ctx attrs (strLower key) data
        if settingsTruthy settings then
          setSettingsAttributes ctx d attrs1 (settings.getD []) key
        else .ok attrs1

/-- `_combine_custom_json_and_default_json_assigning_class_attributes(self)`:
iterate over the default document's keys. -/
def combineConfigs (ctx : Ctx) (d c : ConfigDoc) (attrs0 : Attrs) : Except PyErr Attrs :=
  foldE (processKey ctx d c) attrs0 (docKeys d)

/-- The key-diff check of `_read_custom_json_config_file_validate_keys(self)`:
`set(custom) - set(default)` must be empty. -/
def validateKeys (d c : ConfigDoc) : Except PyErr Unit :=
  let diffs := (docKeys c).filter (fun k => !(docKeys d).contains k)
  if diffs.isEmpty then .ok () else .error (.unsupportedKeys diffs (docKeys d))

/-- `os.environ` access. -/
def envLookup : List (String × String) → String → Option String
  | [], _ => none
  | (k, v) :: t, key => if k = key then some v else envLookup t key

/-- `_set_logs_and_config_path(self)`: capture `logs_path` (unguarded
`getattr`), consult the three harness variables in order, overwrite
`logs_path` on a truthy hit, and always set `config_path` from the captured
value. -/
def setLogsAndConfigPath (env : List (String × String)) (attrs : Attrs) :
    Except PyErr Attrs :=
  match attrs "logs_path" with
  | none => .error (.attributeError "logs_path")
  | some configPath =>
    let logPath : Option String :=
      match envLookup env "ATF_RESULTSDIRECTORY" with
      | some v => some v
      | none =>
        match envLookup env "TESTRESULTPATH" with
        | some v => some v
        | none => envLookup env "BARLI_DEST_PATH"
    let attrs1 :=
      match logPath with
      | some lp =>
        if lp = "" then attrs
        else setAttr attrs "logs_path" (.vbstr (pathJoin lp "Automation_Logs"))
      | none => attrs
    .ok (setAttr attrs1 "config_path" (pyStr configPath))

/-- The existing directories of the file system. -/
def pathExists (fs : List String) (p : String) : Bool := fs.any (fun q => q.data == p.data)

/-- All `'/'`-delimited proper ancestor paths of `p` (helper for
`os.makedirs`). -/
def parentPathsAux : List Char → List Char → List String
  | [], _ => []
  | c :: t, acc =>
    if c == '/' then (⟨acc.reverse⟩ : String) :: parentPathsAux t (c :: acc)
    else parentPathsAux t (c :: acc)

/-- The non-empty ancestor directories created by `os.makedirs(p)`. -/
def parentPaths (p : String) : List String :=
  (parentPathsAux p.data []).filter (fun q => q ≠ "")

/-- `os.makedirs(p)`: create `p` together with its missing ancestors. -/
def makedirs (p : String) (fs : List String) : List String :=
  p :: parentPaths p ++ fs

/-- The attribute names checked by `_ensure_required_paths_exist`. -/
def requiredPathAttrs : List String := ["logs_path", "download_path", "config_path"]

/-- One iteration of the loop in `_ensure_required_paths_exist`. -/
def ensureOne (attrs : Attrs) (fs : List String) (a : String) :
    Except PyErr (List String) :=
  match attrs a with
  | none => .error (.missingAttribute a)
  | some v =>
    if v.pyFalsy then .error (.missingAttribute a)
    else
      match valueStr v with
      | none => .error (.typeError a)
      | some p => if pathExists fs p then .ok fs else .ok (makedirs p fs)

/-- `_ensure_required_paths_exist(self)`. -/
def ensureRequiredPathsExist (attrs : Attrs) (fs : List String) :
    Except PyErr (List String) :=
  foldE (ensureOne attrs) fs requiredPathAttrs

/-- The runtime-path stages of `config()`: `_set_logs_and_config_path`
followed by `_ensure_required_paths_exist`. -/
def deriveRuntimePaths (env : List (String × String)) (attrs : Attrs)
    (fs : List String) : Except PyErr (Attrs × List String) :=
  match setLogsAndConfigPath env attrs with
  | .error e => .error e
  | .ok a1 =>
    match ensureRequiredPathsExist a1 fs with
    | .error e => .error e
    | .ok fs1 => .ok (a1, fs1)

/-- The settings sub-map whose keys the merge iterates for `key`: the custom
entry's wholesale when the custom document defines `key`, else the
default's. -/
def effSettings (d c : ConfigDoc) (key : String) : Option Settings :=
  match lookupDoc c key with
  | some ce => ce.settings
  | none =>
    match lookupDoc d key with
    | some de => de.settings
    | none => none

/-- The attribute names bound from a settings sub-map of `key`. -/
def settingsNames (key : String) (s : Settings) : List String :=
  s.map (fun p => strLower key ++ "_" ++ strLower p.fst)

/-- All attribute names the merge may bind while processing `key`. -/
def keyWrites (d c : ConfigDoc) (key : String) : List String :=
  strLower key ::
    (if settingsTruthy (effSettings d c key) then
      settingsNames key ((effSettings d c key).getD [])
    else [])

/-- All attribute names the merge may bind. -/
def writtenNames (d c : ConfigDoc) : List String :=
  ((docKeys d).map (keyWrites d c)).flatten

/-- The pipeline of `config()` on decoded documents: validate override keys,
merge, then derive and check the runtime paths.  (File reading, JSON decoding
and the final logging are plumbing outside this model.) -/
def configPipeline (ctx : Ctx) (env : List (String × String)) (d c : ConfigDoc)
    (fs : List String) : Except PyErr (Attrs × List String) :=
  match validateKeys d c with
  | .error e => .error e
  | .ok _ =>
    match combineConfigs ctx d c emptyAttrs with
    | .error e => .error e
    | .ok attrs => deriveRuntimePaths env attrs fs

end Config

deriving instance DecidableEq for Except

namespace Config

/-! ### Basic lemmas about the string helpers and attribute namespace -/

theorem setAttr_same (attrs : Attrs) (k : String) (v : Value) :
    setAttr attrs k v k = some v := by
  simp [setAttr]

theorem setAttr_ne (attrs : Attrs) (k n : String) (v : Value) (h : n ≠ k) :
    setAttr attrs k v n = attrs n := by
  simp [setAttr, h]

theorem string_ne_append_under (s t : String) : s ≠ s ++ "_" ++ t := by
  intro h
  have h2 := congrArg String.data h
  simp [String.data_append] at h2

/-- A leading `"~/"` is expanded to the home directory (with trailing slashes
stripped) by `expanduserP`, exactly as `posixpath.expanduser` does. -/
theorem expanduser_leading_tilde (home : String) (pwd : String → Option String)
    (t : String) :
    expanduserP home pwd ("~/" ++ t) = rstripSlash home ++ ("/" ++ t) := by
  have hd : ("~/" ++ t).data = '~' :: '/' :: t.data := by simp
  have hs : strStartsWith ("~/" ++ t) "~" = true := by
    simp [strStartsWith, hd, startsWithL]
  have htail : (⟨'/' :: t.data⟩ : String) = "/" ++ t := by
    apply String.ext
    simp [String.data_append]
  have hne : rstripSlash home ++ ("/" ++ t) ≠ "" := by
    intro h
    have hdata := congrArg String.data h
    simp only [String.data_append] at hdata
    rcases List.append_eq_nil.mp hdata with ⟨_, h2⟩
    rcases List.append_eq_nil.mp h2 with ⟨h3, _⟩
    exact absurd h3 (by decide)
  unfold expanduserP
  rw [hs]
  simp only [if_true, hd, List.drop_succ_cons, List.drop_zero, firstSlashIdx]
  simp only [show (('/' : Char) == '/') = true from rfl, if_true,
    show 1 + 0 = 1 from rfl, List.drop_succ_cons, List.drop_zero]
  rw [htail]
  simp [hne]

/-- A value with no leading `~` is returned unchanged by `expanduserP`. -/
theorem expanduser_no_leading_tilde (home : String) (pwd : String → Option String)
    (t : String) (h : strStartsWith t "~" = false) :
    expanduserP home pwd t = t := by
  simp [expanduserP, h]

/-! ### Claim C9: byte strings bypass token substitution -/

/-- Claim C9: token substitution in `_set_config_attribute` happens only for
`unicode` values; a Python 2 byte string (`str`) passes through completely
unchanged, even when it contains `"~"` or `"%USERPROFILE%"`, and so do all
other non-unicode values. -/
theorem byte_string_passthrough (ctx : Ctx) (s : String) (n : Int) (b : Bool) :
    resolveValue ctx (.vbstr s) = .vbstr s
    ∧ resolveValue ctx (.vbstr "~/data") = .vbstr "~/data"
    ∧ resolveValue ctx (.vbstr "%USERPROFILE%/x") = .vbstr "%USERPROFILE%/x"
    ∧ resolveValue ctx (.vint n) = .vint n
    ∧ resolveValue ctx (.vbool b) = .vbool b :=
  ⟨rfl, rfl, rfl, rfl, rfl⟩

/-! ### Claim C7: substitution priority and username-only replacement -/

/-- Claim C7: at most one substitution is applied per value, `"~"` is checked
before `"%USERPROFILE%"` and wins when present; when `"%USERPROFILE%"` is the
first match it is replaced by the invoking user's account name (`ctx.username`)
only; numeric/boolean values pass through unchanged. -/
theorem path_token_priority (ctx : Ctx) (s u : String) (n : Int) (b : Bool)
    (h1 : strContains s "~" = true)
    (h2 : strContains u "~" = false) (h3 : strContains u "%USERPROFILE%" = true) :
    resolveValue ctx (.vustr s) = .vbstr (expanduserP ctx.home ctx.pwdDir s)
    ∧ resolveValue ctx (.vustr u) = .vbstr (strReplace u "%USERPROFILE%" ctx.username)
    ∧ resolveValue ctx (.vint n) = .vint n
    ∧ resolveValue ctx (.vbool b) = .vbool b
    ∧ resolveValue ctx .vnone = .vnone := by
  refine ⟨?_, ?_, rfl, rfl, rfl⟩
  · simp [resolveValue, h1]
  · simp [resolveValue, h2, h3]

theorem path_token_priority_witness :
    resolveValue ⟨"bob", "/home/bob", fun _ => none⟩ (.vustr "~/data")
      = .vbstr (expanduserP "/home/bob" (fun _ => none) "~/data")
    ∧ resolveValue ⟨"bob", "/home/bob", fun _ => none⟩ (.vustr "%USERPROFILE%/x")
      = .vbstr (strReplace "%USERPROFILE%/x" "%USERPROFILE%" "bob")
    ∧ resolveValue ⟨"bob", "/home/bob", fun _ => none⟩ (.vint 3) = .vint 3
    ∧ resolveValue ⟨"bob", "/home/bob", fun _ => none⟩ (.vbool true) = .vbool true
    ∧ resolveValue ⟨"bob", "/home/bob", fun _ => none⟩ .vnone = .vnone :=
  path_token_priority ⟨"bob", "/home/bob", fun _ => none⟩ "~/data" "%USERPROFILE%/x" 3 true
    (by decide) (by decide) (by decide)

/-! ### Claim C6: tilde expansion -/

/-- Claim C6 counterexample: the value `"data~dir"` contains `"~"`, yet the
bound value is unchanged — `os.path.expanduser` expands only a leading tilde,
so no home-directory expansion happens despite the claim. -/
theorem tilde_anywhere_cex :
    strContains "data~dir" "~" = true
    ∧ resolveValue ⟨"user", "/home/user", fun _ => none⟩ (.vustr "data~dir")
        = .vbstr "data~dir"
    ∧ strContains "data~dir" "/home/user" = false := by
  refine ⟨by decide, by decide, by decide⟩

/-- Claim C6 (amended): a unicode value containing `"~"` is passed through
`os.path.expanduser`, which substitutes the home directory only for a leading
tilde: `"~/rest"` becomes `home ++ "/rest"`, while a value not starting with
`"~"` is left unchanged (no substitution site remains, the scan having stopped
at the tilde). -/
theorem tilde_expansion_leading (ctx : Ctx) (s t u : String)
    (h1 : strContains s "~" = true)
    (h2 : strStartsWith u "~" = false) :
    resolveValue ctx (.vustr s) = .vbstr (expanduserP ctx.home ctx.pwdDir s)
    ∧ expanduserP ctx.home ctx.pwdDir ("~/" ++ t) = rstripSlash ctx.home ++ ("/" ++ t)
    ∧ expanduserP ctx.home ctx.pwdDir u = u
    ∧ resolveValue ⟨"u", "/home/u", fun _ => none⟩ (.vustr "~/data")
        = .vbstr "/home/u/data" := by
  refine ⟨?_, expanduser_leading_tilde ctx.home ctx.pwdDir t,
    expanduser_no_leading_tilde ctx.home ctx.pwdDir u h2, by decide⟩
  simp [resolveValue, h1]

theorem tilde_expansion_leading_witness :
    resolveValue ⟨"u", "/home/u", fun _ => none⟩ (.vustr "~/data")
      = .vbstr (expanduserP "/home/u" (fun _ => none) "~/data")
    ∧ expanduserP "/home/u" (fun _ => none) ("~/" ++ "data")
      = rstripSlash "/home/u" ++ ("/" ++ "data")
    ∧ expanduserP "/home/u" (fun _ => none) "plain" = "plain"
    ∧ resolveValue ⟨"u", "/home/u", fun _ => none⟩ (.vustr "~/data")
      = .vbstr "/home/u/data" :=
  tilde_expansion_leading ⟨"u", "/home/u", fun _ => none⟩ "~/data" "data" "plain"
    (by decide) (by decide)

/-! ### Claim C1 counterexample: settings merging is wholesale, not field-level -/

/-- Claim C1 counterexample: the default defines settings sub-keys `alpha` and
`beta` for key `Svc`; the custom entry overrides only `alpha`.  Field-level
merging would still bind `svc_beta` from the default (`3`), but the merge
binds only `svc_alpha` (from the custom document) and leaves `svc_beta`
entirely unbound. -/
theorem settings_not_field_level_cex :
    (combineConfigs ⟨"u", "/h", fun _ => none⟩
        [("Svc", ⟨.vint 1, some [("alpha", .vint 2), ("beta", .vint 3)]⟩)]
        [("Svc", ⟨.vint 5, some [("alpha", .vint 7)]⟩)] emptyAttrs).map
      (fun a => (a "svc_alpha", a "svc_beta"))
    = .ok (some (.vint 7), none) := by decide

/-! ### Claim C2 counterexample: the type check admits subtypes -/

/-- Claim C2 counterexample: the default types `retries` as an integer and the
custom document supplies the boolean `true`; strict type equality would
reject it, but the construction succeeds (`isinstance(True, int)` holds in
Python 2 because `bool` subclasses `int`) and binds the boolean. -/
theorem type_check_not_strict_cex :
    (configPipeline ⟨"u", "/h", fun _ => none⟩ []
        [("logs_path", ⟨.vustr "/tmp/l", none⟩), ("download_path", ⟨.vustr "/tmp/d", none⟩),
         ("retries", ⟨.vint 3, none⟩)]
        [("retries", ⟨.vbool true, none⟩)] ["/tmp/l", "/tmp/d"]).map
      (fun r => r.1 "retries")
    = .ok (some (.vbool true)) := by decide

/-! ### Claim C4 counterexample: an environment variable set to the empty
string is "set" but produces no override, and suppresses the later variables -/

/-- Claim C4 counterexample: `ATF_RESULTSDIRECTORY` is set (to the empty
string) and `TESTRESULTPATH` is set to a usable path, yet `logs_path` is not
overwritten at all — the claim's "when one is set, logs_path is overwritten
with that value/Automation_Logs" fails. -/
theorem env_override_empty_value_cex :
    (setLogsAndConfigPath [("ATF_RESULTSDIRECTORY", ""), ("TESTRESULTPATH", "/tmp/results")]
        (fun n => if n = "logs_path" then some (.vustr "/cfg/logs") else none)).map
      (fun a => (a "logs_path", a "config_path"))
    = .ok (some (.vustr "/cfg/logs"), some (.vbstr "/cfg/logs")) := by decide

end Config

namespace Config

/-! ### Structure of the merge fold -/

theorem foldE_append {σ α : Type} (f : σ → α → Except PyErr σ) (s : σ) (l1 l2 : List α) :
    foldE f s (l1 ++ l2) = match foldE f s l1 with
      | .error e => .error e
      | .ok s' => foldE f s' l2 := by
  induction l1 generalizing s with
  | nil => simp [foldE]
  | cons x xs ih =>
    simp only [List.cons_append, foldE]
    cases f s x with
    | error e => rfl
    | ok s' => exact ih s'

theorem getSettingsAndValue_settings (d c : ConfigDoc) (key : String) (v : Value)
    (s : Option Settings) (h : getSettingsAndValue d c key = .ok (v, s)) :
    s = effSettings d c key := by
  unfold getSettingsAndValue at h
  unfold effSettings
  cases hc : lookupDoc c key with
  | some ce => rw [hc] at h; cases h; rfl
  | none =>
    rw [hc] at h
    cases hd : lookupDoc d key with
    | some de => rw [hd] at h; cases h; rfl
    | none => rw [hd] at h; cases h

theorem processSettingsKey_frame (ctx : Ctx) (d : ConfigDoc) (key : String)
    (cs : Settings) (attrs attrs' : Attrs) (sk n : String)
    (hok : processSettingsKey ctx d key cs attrs sk = .ok attrs')
    (hn : n ≠ strLower key ++ "_" ++ strLower sk) :
    attrs' n = attrs n := by
  unfold processSettingsKey at hok
  split at hok
  · cases hok
  split at hok
  · cases hok
  split at hok
  · cases hok
  split at hok
  · cases hok
  split at hok
  · cases hok
  cases hok
  exact setAttr_ne _ _ _ _ hn

theorem processSettingsKey_writes (ctx : Ctx) (d : ConfigDoc) (key : String)
    (cs : Settings) (attrs attrs' : Attrs) (sk : String)
    (hok : processSettingsKey ctx d key cs attrs sk = .ok attrs') :
    ∃ data, lookupS cs sk = some data
      ∧ attrs' (strLower key ++ "_" ++ strLower sk) = some (resolveValue ctx data) := by
  unfold processSettingsKey at hok
  split at hok
  · cases hok
  split at hok
  · cases hok
  split at hok
  · cases hok
  split at hok
  · cases hok
  next data hdata =>
    split at hok
    · cases hok
    cases hok
    exact ⟨data, hdata, setAttr_same _ _ _⟩

theorem settingsFold_frame (ctx : Ctx) (d : ConfigDoc) (key : String) (cs : Settings)
    (sks : List String) (attrs attrs' : Attrs) (n : String)
    (hok : foldE (processSettingsKey ctx d key cs) attrs sks = .ok attrs')
    (hn : ∀ sk ∈ sks, n ≠ strLower key ++ "_" ++ strLower sk) :
    attrs' n = attrs n := by
  induction sks generalizing attrs with
  | nil => cases hok; rfl
  | cons sk sks ih =>
    simp only [foldE] at hok
    cases h : processSettingsKey ctx d key cs attrs sk with
    | error e => rw [h] at hok; cases hok
    | ok a1 =>
      rw [h] at hok
      rw [ih a1 hok (fun x hx => hn x (List.mem_cons_of_mem _ hx))]
      exact processSettingsKey_frame ctx d key cs attrs a1 sk n h (hn sk (List.mem_cons_self _ _))

theorem settingsFold_value (ctx : Ctx) (d : ConfigDoc) (key : String) (cs : Settings)
    (sks : List String) (attrs attrs' : Attrs) (sk0 : String) (sv : Value)
    (hok : foldE (processSettingsKey ctx d key cs) attrs sks = .ok attrs')
    (hnd : (sks.map (fun sk => strLower key ++ "_" ++ strLower sk)).Nodup)
    (hsk : sk0 ∈ sks) (hv : lookupS cs sk0 = some sv) :
    attrs' (strLower key ++ "_" ++ strLower sk0) = some (resolveValue ctx sv) := by
  induction sks generalizing attrs with
  | nil => cases hsk
  | cons sk sks ih =>
    simp only [foldE] at hok
    cases h : processSettingsKey ctx d key cs attrs sk with
    | error e => rw [h] at hok; cases hok
    | ok a1 =>
      rw [h] at hok
      simp only [List.map_cons, List.nodup_cons] at hnd
      rcases List.mem_cons.mp hsk with rfl | hsk'
      · obtain ⟨data, hdata, hw⟩ := processSettingsKey_writes ctx d key cs attrs a1 sk0 h
        rw [hv] at hdata
        cases hdata
        rw [settingsFold_frame ctx d key cs sks a1 attrs' _ hok ?_]
        · exact hw
        · intro x hx heq
          exact hnd.1 (heq ▸ List.mem_map_of_mem _ hx)
      · exact ih a1 hok hnd.2 hsk'

theorem processKey_ok_parts (ctx : Ctx) (d c : ConfigDoc) (attrs attrs' : Attrs)
    (key : String) (hok : processKey ctx d c attrs key = .ok attrs') :
    ∃ de data, lookupDoc d key = some de
      ∧ getSettingsAndValue d c key = .ok (data, effSettings d c key)
      ∧ data.isinstance de.value.typeOf = true
      ∧ attrs' (strLower key) = some (resolveValue ctx data)
      ∧ (∀ n, n ∉ keyWrites d c key → attrs' n = attrs n)
      ∧ (settingsTruthy (effSettings d c key) = true →
          (settingsNames key ((effSettings d c key).getD [])).Nodup →
          ∀ sk sv, sk ∈ ((effSettings d c key).getD []).map Prod.fst →
            lookupS ((effSettings d c key).getD []) sk = some sv →
            attrs' (strLower key ++ "_" ++ strLower sk) = some (resolveValue ctx sv)) := by
  unfold processKey at hok
  split at hok
  · cases hok
  next de hde =>
    split at hok
    · cases hok
    next data settings hget =>
      have hset : settings = effSettings d c key :=
        getSettingsAndValue_settings d c key data settings hget
      subst hset
      split at hok
      next hbad => cases hok
      next hgood =>
        replace hgood : data.isinstance de.value.typeOf = true := by simpa using hgood
        refine ⟨de, data, hde, hget, hgood, ?_⟩
        split at hok
        next htruthy =>
          -- settings fold ran
          unfold setSettingsAttributes at hok
          refine ⟨?_, ?_, ?_⟩
          · rw [settingsFold_frame ctx d key _ _ _ attrs' _ hok ?_]
            · exact setAttr_same _ _ _
            · intro sk _
              exact string_ne_append_under (strLower key) (strLower sk)
          · intro n hn
            have hn1 : n ≠ strLower key := by
              intro h; exact hn (h ▸ List.mem_cons_self _ _)
            have hn2 : ∀ sk ∈ ((effSettings d c key).getD []).map Prod.fst,
                n ≠ strLower key ++ "_" ++ strLower sk := by
              intro sk hsk heq
              apply hn
              unfold keyWrites
              rw [htruthy]
              simp only [if_true]
              apply List.mem_cons_of_mem
              unfold settingsNames
              obtain ⟨p, hp, hfst⟩ := List.mem_map.mp hsk
              exact heq ▸ hfst ▸ List.mem_map_of_mem _ hp
            rw [settingsFold_frame ctx d key _ _ _ attrs' n hok hn2]
            exact setAttr_ne _ _ _ _ hn1
          · intro _ hnd sk sv hsk hv
            have hnd' : (((effSettings d c key).getD []).map Prod.fst |>.map
                (fun sk => strLower key ++ "_" ++ strLower sk)).Nodup := by
              unfold settingsNames at hnd
              rw [List.map_map]
              exact hnd
            exact settingsFold_value ctx d key _ _ _ attrs' sk sv hok hnd' hsk hv
        next hfalsy =>
          cases hok
          refine ⟨setAttr_same _ _ _, ?_, ?_⟩
          · intro n hn
            apply setAttr_ne
            intro h
            exact hn (h ▸ List.mem_cons_self _ _)
          · intro ht
            exact absurd ht hfalsy

theorem combineFold_frame (ctx : Ctx) (d c : ConfigDoc) (ks : List String)
    (attrs attrs' : Attrs) (n : String)
    (hok : foldE (processKey ctx d c) attrs ks = .ok attrs')
    (hn : ∀ k ∈ ks, n ∉ keyWrites d c k) :
    attrs' n = attrs n := by
  induction ks generalizing attrs with
  | nil => cases hok; rfl
  | cons k ks ih =>
    simp only [foldE] at hok
    cases h : processKey ctx d c attrs k with
    | error e => rw [h] at hok; cases hok
    | ok a1 =>
      rw [h] at hok
      rw [ih a1 hok (fun x hx => hn x (List.mem_cons_of_mem _ hx))]
      obtain ⟨_, _, _, _, _, _, hframe, _⟩ := processKey_ok_parts ctx d c attrs a1 k h
      exact hframe n (hn k (List.mem_cons_self _ _))

theorem writes_disjoint_after (d c : ConfigDoc) (l1 l2 : List String) (k : String)
    (hsplit : docKeys d = l1 ++ k :: l2)
    (hnd : (writtenNames d c).Nodup) (n : String) (hn : n ∈ keyWrites d c k) :
    ∀ k' ∈ l2, n ∉ keyWrites d c k' := by
  have hw : writtenNames d c
      = (l1.map (keyWrites d c)).flatten
        ++ (keyWrites d c k ++ (l2.map (keyWrites d c)).flatten) := by
    unfold writtenNames
    rw [hsplit, List.map_append, List.flatten_append, List.map_cons, List.flatten_cons]
  rw [hw] at hnd
  have h2 := hnd.of_append_right
  have hdisj := List.disjoint_of_nodup_append h2
  intro k' hk' hmem
  exact hdisj hn (List.mem_flatten.mpr ⟨keyWrites d c k', List.mem_map_of_mem _ hk', hmem⟩)

theorem keyWrites_nodup_of_split (d c : ConfigDoc) (l1 l2 : List String) (k : String)
    (hsplit : docKeys d = l1 ++ k :: l2)
    (hnd : (writtenNames d c).Nodup) : (keyWrites d c k).Nodup := by
  have hw : writtenNames d c
      = (l1.map (keyWrites d c)).flatten
        ++ (keyWrites d c k ++ (l2.map (keyWrites d c)).flatten) := by
    unfold writtenNames
    rw [hsplit, List.map_append, List.flatten_append, List.map_cons, List.flatten_cons]
  rw [hw] at hnd
  exact hnd.of_append_right.of_append_left

end Config

namespace Config

/-! ### Claim C5: per-key effective-value binding -/

/-- Claim C5: for every key of the default document the merge binds the
attribute named by the lower-cased key to the path-resolved custom value when
the custom document defines the key, and otherwise to the path-resolved
default value; and no attribute outside the written-name set is ever bound. -/
theorem merge_binds_effective_values (ctx : Ctx) (d c : ConfigDoc) (attrs : Attrs)
    (k : String)
    (hok : combineConfigs ctx d c emptyAttrs = .ok attrs)
    (hk : k ∈ docKeys d)
    (hnd : (writtenNames d c).Nodup) :
    (∀ ce, lookupDoc c k = some ce →
        attrs (strLower k) = some (resolveValue ctx ce.value))
    ∧ (lookupDoc c k = none → ∀ de, lookupDoc d k = some de →
        attrs (strLower k) = some (resolveValue ctx de.value))
    ∧ (∀ n, n ∉ writtenNames d c → attrs n = none) := by
  unfold combineConfigs at hok
  obtain ⟨l1, l2, hsplit⟩ := List.append_of_mem hk
  have hcore : ∃ data, getSettingsAndValue d c k = .ok (data, effSettings d c k)
      ∧ attrs (strLower k) = some (resolveValue ctx data) := by
    have hok' := hok
    rw [hsplit, foldE_append] at hok'
    cases h1 : foldE (processKey ctx d c) emptyAttrs l1 with
    | error e => rw [h1] at hok'; cases hok'
    | ok a1 =>
      rw [h1] at hok'
      simp only [foldE] at hok'
      cases h2 : processKey ctx d c a1 k with
      | error e => rw [h2] at hok'; cases hok'
      | ok a2 =>
        rw [h2] at hok'
        obtain ⟨de, data, hde, hget, _, hval, _, _⟩ :=
          processKey_ok_parts ctx d c a1 a2 k h2
        have hpres : attrs (strLower k) = a2 (strLower k) :=
          combineFold_frame ctx d c l2 a2 attrs _ hok'
            (writes_disjoint_after d c l1 l2 k hsplit hnd _
              (by unfold keyWrites; exact List.mem_cons_self _ _))
        exact ⟨data, hget, by rw [hpres, hval]⟩
  obtain ⟨data, hget, hattr⟩ := hcore
  refine ⟨?_, ?_, ?_⟩
  · intro ce hce
    have hg2 : getSettingsAndValue d c k = .ok (ce.value, ce.settings) := by
      unfold getSettingsAndValue; rw [hce]
    have hE := hg2.symm.trans hget
    simp only [Except.ok.injEq, Prod.mk.injEq] at hE
    rw [hattr, hE.1]
  · intro hnone de' hde'
    have hg2 : getSettingsAndValue d c k = .ok (de'.value, de'.settings) := by
      unfold getSettingsAndValue; rw [hnone, hde']
    have hE := hg2.symm.trans hget
    simp only [Except.ok.injEq, Prod.mk.injEq] at hE
    rw [hattr, hE.1]
  · intro n hn
    rw [combineFold_frame ctx d c (docKeys d) emptyAttrs attrs n hok ?_]
    · rfl
    · intro k' hk' hmem
      exact hn (List.mem_flatten.mpr ⟨keyWrites d c k', List.mem_map_of_mem _ hk', hmem⟩)

theorem merge_binds_effective_values_witness :
    (combineConfigs ⟨"u", "/h", fun _ => none⟩
        [("Timeout", ⟨Value.vint 30, none⟩)] [] emptyAttrs).map
      (fun a => (a "timeout", a "unrelated"))
    = .ok (some (Value.vint 30), none) := by
  cases hok : combineConfigs ⟨"u", "/h", fun _ => none⟩
      [("Timeout", ⟨Value.vint 30, none⟩)] [] emptyAttrs with
  | error e =>
    have hbad : (combineConfigs ⟨"u", "/h", fun _ => none⟩
        [("Timeout", ⟨Value.vint 30, none⟩)] [] emptyAttrs).isOk = false := by
      rw [hok]; rfl
    exact absurd hbad (by decide)
  | ok attrs =>
    have h := merge_binds_effective_values ⟨"u", "/h", fun _ => none⟩
      [("Timeout", ⟨Value.vint 30, none⟩)] [] attrs "Timeout" hok
      (by decide) (by decide)
    have h1 := h.2.1 rfl ⟨Value.vint 30, none⟩ (by decide)
    have h2 := h.2.2 "unrelated" (by decide)
    rw [show strLower "Timeout" = "timeout" from by decide] at h1
    simp only [Except.map, hok]
    rw [h1, h2]
    rfl

/-! ### Claim C1 (amended): settings are overridden wholesale -/

/-- Claim C1 (amended): when the custom document defines key `k`, the settings
sub-map the merge iterates is exactly the custom entry's; every sub-key of the
custom settings is type-checked against the default's settings sub-key type
and bound to the custom sub-value, and no attribute outside the written-name
set — in particular none for a default settings sub-key the custom entry
omits — is ever bound. -/
theorem settings_override_wholesale (ctx : Ctx) (d c : ConfigDoc) (attrs : Attrs)
    (k : String) (ce : ConfigEntry) (cs : Settings)
    (hok : combineConfigs ctx d c emptyAttrs = .ok attrs)
    (hk : k ∈ docKeys d)
    (hce : lookupDoc c k = some ce)
    (hcs : ce.settings = some cs)
    (hnd : (writtenNames d c).Nodup) :
    (∀ sk sv, sk ∈ cs.map Prod.fst → lookupS cs sk = some sv →
        attrs (strLower k ++ "_" ++ strLower sk) = some (resolveValue ctx sv))
    ∧ (∀ n, n ∉ writtenNames d c → attrs n = none) := by
  have heff : effSettings d c k = some cs := by
    simp [effSettings, hce, hcs]
  unfold combineConfigs at hok
  obtain ⟨l1, l2, hsplit⟩ := List.append_of_mem hk
  refine ⟨?_, ?_⟩
  case refine_2 =>
    intro n hn
    rw [combineFold_frame ctx d c (docKeys d) emptyAttrs attrs n hok ?_]
    · rfl
    · intro k' hk' hmem
      exact hn (List.mem_flatten.mpr ⟨keyWrites d c k', List.mem_map_of_mem _ hk', hmem⟩)
  intro sk sv hsk hsv
  have hcs_ne : cs ≠ [] := by
    intro h; rw [h] at hsk; cases hsk
  have htruthy : settingsTruthy (effSettings d c k) = true := by
    rw [heff]
    unfold settingsTruthy
    simp [hcs_ne]
  rw [hsplit, foldE_append] at hok
  cases h1 : foldE (processKey ctx d c) emptyAttrs l1 with
  | error e => rw [h1] at hok; cases hok
  | ok a1 =>
    rw [h1] at hok
    simp only [foldE] at hok
    cases h2 : processKey ctx d c a1 k with
    | error e => rw [h2] at hok; cases hok
    | ok a2 =>
      rw [h2] at hok
      obtain ⟨de, data, hde, hget, _, _, _, hsett⟩ :=
        processKey_ok_parts ctx d c a1 a2 k h2
      have hndw : (settingsNames k ((effSettings d c k).getD [])).Nodup := by
        have hkw := keyWrites_nodup_of_split d c l1 l2 k hsplit hnd
        unfold keyWrites at hkw
        rw [htruthy] at hkw
        simp only [if_true] at hkw
        exact hkw.of_cons
      have hval := hsett htruthy hndw sk sv
        (by rw [heff]; exact hsk) (by rw [heff]; exact hsv)
      have hpres : attrs (strLower k ++ "_" ++ strLower sk)
          = a2 (strLower k ++ "_" ++ strLower sk) := by
        refine combineFold_frame ctx d c l2 a2 attrs _ hok
          (writes_disjoint_after d c l1 l2 k hsplit hnd _ ?_)
        unfold keyWrites
        rw [htruthy]
        simp only [if_true]
        apply List.mem_cons_of_mem
        unfold settingsNames
        rw [heff]
        obtain ⟨p, hp, hfst⟩ := List.mem_map.mp hsk
        exact hfst ▸ List.mem_map_of_mem _ hp
      rw [hpres, hval]

theorem settings_override_wholesale_witness :
    (combineConfigs ⟨"u", "/h", fun _ => none⟩
        [("Svc", ⟨Value.vint 1, some [("alpha", Value.vint 2), ("beta", Value.vint 3)]⟩)]
        [("Svc", ⟨Value.vint 5, some [("alpha", Value.vint 7)]⟩)] emptyAttrs).map
      (fun a => (a "svc_alpha", a "other"))
    = .ok (some (Value.vint 7), none) := by
  cases hok : combineConfigs ⟨"u", "/h", fun _ => none⟩
      [("Svc", ⟨Value.vint 1, some [("alpha", Value.vint 2), ("beta", Value.vint 3)]⟩)]
      [("Svc", ⟨Value.vint 5, some [("alpha", Value.vint 7)]⟩)] emptyAttrs with
  | error e =>
    have hbad : (combineConfigs ⟨"u", "/h", fun _ => none⟩
        [("Svc", ⟨Value.vint 1, some [("alpha", Value.vint 2), ("beta", Value.vint 3)]⟩)]
        [("Svc", ⟨Value.vint 5, some [("alpha", Value.vint 7)]⟩)] emptyAttrs).isOk = false := by
      rw [hok]; rfl
    exact absurd hbad (by decide)
  | ok attrs =>
    have h := settings_override_wholesale ⟨"u", "/h", fun _ => none⟩
      _ _ attrs "Svc" ⟨Value.vint 5, some [("alpha", Value.vint 7)]⟩
      [("alpha", Value.vint 7)] hok (by decide) (by decide) rfl (by decide)
    have h1 := h.1 "alpha" (Value.vint 7) (by decide) (by decide)
    have h2 := h.2 "other" (by decide)
    rw [show strLower "Svc" ++ "_" ++ strLower "alpha" = "svc_alpha" from by decide] at h1
    simp only [Except.map, hok]
    rw [h1, h2]
    rfl

/-! ### Claim C2 (amended): the type contract is isinstance, not equality -/

/-- Claim C2 (amended): a successful merge guarantees every effective value is
an `isinstance` of the default value's runtime type, and a value failing
`isinstance` makes the merge fail; but the contract admits proper subtypes:
a boolean is accepted for an integer-typed key (`bool <: int` in Python 2),
while e.g. a string for an integer-typed key is rejected. -/
theorem type_check_isinstance (ctx : Ctx) (d c : ConfigDoc) (attrs0 : Attrs) :
    (∀ attrs, combineConfigs ctx d c attrs0 = .ok attrs →
      ∀ k de data s, k ∈ docKeys d → lookupDoc d k = some de →
        getSettingsAndValue d c k = .ok (data, s) →
        data.isinstance de.value.typeOf = true)
    ∧ (∀ k de data s, k ∈ docKeys d → lookupDoc d k = some de →
        getSettingsAndValue d c k = .ok (data, s) →
        data.isinstance de.value.typeOf = false →
        ∀ attrs, combineConfigs ctx d c attrs0 ≠ .ok attrs)
    ∧ (∀ key cs attrs1 attrs2 sk de ds dv data,
        lookupDoc d key = some de → de.settings = some ds → lookupS ds sk = some dv →
        lookupS cs sk = some data →
        processSettingsKey ctx d key cs attrs1 sk = .ok attrs2 →
        data.isinstance dv.typeOf = true)
    ∧ (∀ b : Bool, (Value.vbool b).isinstance .tint = true)
    ∧ (∀ n : Int, (Value.vint n).isinstance .tbool = false)
    ∧ (∀ s : String, (Value.vustr s).isinstance .tint = false) := by
  have hmain : ∀ attrs, combineConfigs ctx d c attrs0 = .ok attrs →
      ∀ k de data s, k ∈ docKeys d → lookupDoc d k = some de →
        getSettingsAndValue d c k = .ok (data, s) →
        data.isinstance de.value.typeOf = true := by
    intro attrs hok k de data s hk hde hget
    unfold combineConfigs at hok
    obtain ⟨l1, l2, hsplit⟩ := List.append_of_mem hk
    rw [hsplit, foldE_append] at hok
    cases h1 : foldE (processKey ctx d c) attrs0 l1 with
    | error e => rw [h1] at hok; cases hok
    | ok a1 =>
      rw [h1] at hok
      simp only [foldE] at hok
      cases h2 : processKey ctx d c a1 k with
      | error e => rw [h2] at hok; cases hok
      | ok a2 =>
        obtain ⟨de', data', hde', hget', hinst, _, _, _⟩ :=
          processKey_ok_parts ctx d c a1 a2 k h2
        have hde2 : de' = de := Option.some.inj (hde'.symm.trans hde)
        have hE := hget'.symm.trans hget
        simp only [Except.ok.injEq, Prod.mk.injEq] at hE
        rw [← hde2, ← hE.1]
        exact hinst
  refine ⟨hmain, ?_, ?_, fun _ => rfl, fun _ => rfl, fun _ => rfl⟩
  · intro k de data s hk hde hget hbad attrs hok
    have := hmain attrs hok k de data s hk hde hget
    rw [this] at hbad
    cases hbad
  · intro key cs attrs1 attrs2 sk de ds dv data hde hds hdv hdata hok
    unfold processSettingsKey at hok
    simp only [hde, hds, hdv, hdata] at hok
    split at hok
    next hbad => cases hok
    next hgood => simpa using hgood

theorem type_check_isinstance_witness :
    (Value.vbool true).isinstance PyType.tint = true
    ∧ (Value.vustr "3").isinstance PyType.tint = false := by
  cases hok : combineConfigs ⟨"u", "/h", fun _ => none⟩
      [("retries", ⟨Value.vint 3, none⟩)]
      [("retries", ⟨Value.vbool true, none⟩)] emptyAttrs with
  | error e =>
    have hbad : (combineConfigs ⟨"u", "/h", fun _ => none⟩
        [("retries", ⟨Value.vint 3, none⟩)]
        [("retries", ⟨Value.vbool true, none⟩)] emptyAttrs).isOk = false := by
      rw [hok]; rfl
    exact absurd hbad (by decide)
  | ok attrs =>
    refine ⟨?_, rfl⟩
    exact (type_check_isinstance ⟨"u", "/h", fun _ => none⟩
      [("retries", ⟨Value.vint 3, none⟩)]
      [("retries", ⟨Value.vbool true, none⟩)] emptyAttrs).1 attrs hok
      "retries" ⟨Value.vint 3, none⟩ (Value.vbool true) none
      (by decide) (by decide) (by decide)

/-! ### Claim C3: unsupported custom keys fail fast -/

/-- Claim C3: when the custom document contains a top-level key absent from
the default document, the pipeline fails with the unsupported-key error before
any merging or type checking runs; the error carries exactly the offending
keys (the custom keys absent from the default) and the complete supported key
list. -/
theorem unsupported_key_fails_fast (ctx : Ctx) (env : List (String × String))
    (d c : ConfigDoc) (fs : List String) (k0 : String)
    (hc : k0 ∈ docKeys c) (hd : k0 ∉ docKeys d) :
    configPipeline ctx env d c fs
      = .error (.unsupportedKeys
          ((docKeys c).filter (fun k => !(docKeys d).contains k)) (docKeys d))
    ∧ k0 ∈ (docKeys c).filter (fun k => !(docKeys d).contains k)
    ∧ (∀ k, k ∈ (docKeys c).filter (fun k => !(docKeys d).contains k)
        ↔ (k ∈ docKeys c ∧ k ∉ docKeys d)) := by
  have hchar : ∀ k, (k ∈ (docKeys c).filter (fun k => !(docKeys d).contains k))
      ↔ (k ∈ docKeys c ∧ k ∉ docKeys d) := by
    intro k
    rw [List.mem_filter]
    simp [List.elem_iff]
  have hmem : k0 ∈ (docKeys c).filter (fun k => !(docKeys d).contains k) :=
    (hchar k0).mpr ⟨hc, hd⟩
  have hval : validateKeys d c
      = .error (.unsupportedKeys
          ((docKeys c).filter (fun k => !(docKeys d).contains k)) (docKeys d)) := by
    unfold validateKeys
    rw [if_neg ?_]
    intro hE
    rw [List.isEmpty_iff] at hE
    rw [hE] at hmem
    cases hmem
  refine ⟨?_, hmem, hchar⟩
  unfold configPipeline
  rw [hval]

theorem unsupported_key_fails_fast_witness :
    configPipeline ⟨"u", "/h", fun _ => none⟩ []
      [("alpha", ⟨Value.vint 1, none⟩)] [("bogus", ⟨Value.vint 1, none⟩)] []
      = .error (.unsupportedKeys ["bogus"] ["alpha"])
    ∧ ("bogus" : String) ∈ ["bogus"] := by
  have h := unsupported_key_fails_fast ⟨"u", "/h", fun _ => none⟩ []
    [("alpha", ⟨Value.vint 1, none⟩)] [("bogus", ⟨Value.vint 1, none⟩)] [] "bogus"
    (by decide) (by decide)
  refine ⟨?_, by decide⟩
  have h1 := h.1
  rw [show PyErr.unsupportedKeys
      ((docKeys [("bogus", (⟨Value.vint 1, none⟩ : ConfigEntry))]).filter
        (fun k => !(docKeys [("alpha", (⟨Value.vint 1, none⟩ : ConfigEntry))]).contains k))
      (docKeys [("alpha", (⟨Value.vint 1, none⟩ : ConfigEntry))])
      = PyErr.unsupportedKeys ["bogus"] ["alpha"] from by decide] at h1
  exact h1

end Config

namespace Config

/-! ### Claim C4 (amended): environment override of the runtime paths -/

/-- Claim C4 (amended): `_set_logs_and_config_path` consults exactly
`ATF_RESULTSDIRECTORY`, `TESTRESULTPATH`, `BARLI_DEST_PATH` in that order,
first-defined-wins; when the first defined variable has a non-empty value,
`logs_path` is overwritten with `join(value, "Automation_Logs")`; when the
first defined variable's value is empty no override happens at all (the later
variables are not consulted); and `config_path` is always set to `str()` of
the `logs_path` value captured before the override. -/
theorem runtime_path_env_override (env : List (String × String)) (attrs : Attrs)
    (v0 : Value) (s : String)
    (h0 : attrs "logs_path" = some v0) :
    (envLookup env "ATF_RESULTSDIRECTORY" = some s → s ≠ "" →
      ∃ a1, setLogsAndConfigPath env attrs = .ok a1
        ∧ a1 "logs_path" = some (.vbstr (pathJoin s "Automation_Logs"))
        ∧ a1 "config_path" = some (pyStr v0))
    ∧ (envLookup env "ATF_RESULTSDIRECTORY" = none →
        envLookup env "TESTRESULTPATH" = some s → s ≠ "" →
      ∃ a1, setLogsAndConfigPath env attrs = .ok a1
        ∧ a1 "logs_path" = some (.vbstr (pathJoin s "Automation_Logs"))
        ∧ a1 "config_path" = some (pyStr v0))
    ∧ (envLookup env "ATF_RESULTSDIRECTORY" = none →
        envLookup env "TESTRESULTPATH" = none →
        envLookup env "BARLI_DEST_PATH" = some s → s ≠ "" →
      ∃ a1, setLogsAndConfigPath env attrs = .ok a1
        ∧ a1 "logs_path" = some (.vbstr (pathJoin s "Automation_Logs"))
        ∧ a1 "config_path" = some (pyStr v0))
    ∧ (envLookup env "ATF_RESULTSDIRECTORY" = some "" →
      ∃ a1, setLogsAndConfigPath env attrs = .ok a1
        ∧ a1 "logs_path" = some v0
        ∧ a1 "config_path" = some (pyStr v0))
    ∧ (envLookup env "ATF_RESULTSDIRECTORY" = none →
        envLookup env "TESTRESULTPATH" = none →
        envLookup env "BARLI_DEST_PATH" = none →
      ∃ a1, setLogsAndConfigPath env attrs = .ok a1
        ∧ a1 "logs_path" = some v0
        ∧ a1 "config_path" = some (pyStr v0)) := by
  refine ⟨?_, ?_, ?_, ?_, ?_⟩
  · intro hA hs
    simp only [setLogsAndConfigPath, h0, hA, if_neg hs]
    refine ⟨_, rfl, ?_, setAttr_same _ _ _⟩
    rw [setAttr_ne _ _ _ _ (by decide), setAttr_same]
  · intro hA hT hs
    simp only [setLogsAndConfigPath, h0, hA, hT, if_neg hs]
    refine ⟨_, rfl, ?_, setAttr_same _ _ _⟩
    rw [setAttr_ne _ _ _ _ (by decide), setAttr_same]
  · intro hA hT hB hs
    simp only [setLogsAndConfigPath, h0, hA, hT, hB, if_neg hs]
    refine ⟨_, rfl, ?_, setAttr_same _ _ _⟩
    rw [setAttr_ne _ _ _ _ (by decide), setAttr_same]
  · intro hA
    simp only [setLogsAndConfigPath, h0, hA]
    refine ⟨_, rfl, ?_, setAttr_same _ _ _⟩
    rw [setAttr_ne _ _ _ _ (by decide)]
    simp [h0]
  · intro hA hT hB
    simp only [setLogsAndConfigPath, h0, hA, hT, hB]
    refine ⟨_, rfl, ?_, setAttr_same _ _ _⟩
    rw [setAttr_ne _ _ _ _ (by decide), h0]

theorem runtime_path_env_override_witness :
    (setLogsAndConfigPath [("TESTRESULTPATH", "/tmp/results")]
        (fun n => if n = "logs_path" then some (Value.vustr "/cfg/logs") else none)).map
      (fun a => (a "logs_path", a "config_path"))
    = .ok (some (.vbstr (pathJoin "/tmp/results" "Automation_Logs")),
        some (pyStr (Value.vustr "/cfg/logs"))) := by
  obtain ⟨a1, he, hl, hc⟩ :=
    (runtime_path_env_override [("TESTRESULTPATH", "/tmp/results")]
      (fun n => if n = "logs_path" then some (Value.vustr "/cfg/logs") else none)
      (Value.vustr "/cfg/logs") "/tmp/results" rfl).2.1 rfl rfl (by decide)
  rw [he]
  simp only [Except.map]
  rw [hl, hc]

/-! ### Claim C8: required path attributes and directory creation -/

theorem ensureOne_ok_parts (attrs : Attrs) (fs : List String) (a : String)
    (fs' : List String) (h : ensureOne attrs fs a = .ok fs') :
    ∃ v p, attrs a = some v ∧ v.pyFalsy = false ∧ valueStr v = some p
      ∧ pathExists fs' p = true
      ∧ (∀ q, pathExists fs q = true → pathExists fs' q = true)
      ∧ (pathExists fs p = true → fs' = fs) := by
  unfold ensureOne at h
  split at h
  · cases h
  next v hv =>
    split at h
    · cases h
    next hfalsy =>
      split at h
      · cases h
      next p hp =>
        split at h
        next hex =>
          cases h
          exact ⟨v, p, hv, by simpa using hfalsy, hp, hex, fun q hq => hq, fun _ => rfl⟩
        next hnex =>
          cases h
          refine ⟨v, p, hv, by simpa using hfalsy, hp, ?_, ?_, ?_⟩
          · simp [pathExists, makedirs]
          · intro q hq
            unfold pathExists at hq
            simp only [pathExists, makedirs, List.any_cons, List.any_append,
              Bool.or_eq_true]
            tauto
          · intro hex
            exact absurd hex (by simp [hnex])

theorem ensureOne_of_exists (attrs : Attrs) (fs : List String) (a : String)
    (v : Value) (p : String) (hv : attrs a = some v) (hf : v.pyFalsy = false)
    (hp : valueStr v = some p) (hex : pathExists fs p = true) :
    ensureOne attrs fs a = .ok fs := by
  unfold ensureOne
  rw [hv]
  simp only [hf, Bool.false_eq_true, if_false, hp, hex, if_true]

theorem ensureOne_error_missing (attrs : Attrs) (fs : List String) (a : String)
    (n : String) (h : ensureOne attrs fs a = .error (.missingAttribute n)) :
    n = a ∧ (attrs a = none ∨ ∃ v, attrs a = some v ∧ v.pyFalsy = true) := by
  unfold ensureOne at h
  split at h
  next hnone => cases h; exact ⟨rfl, Or.inl hnone⟩
  next v hv =>
    split at h
    next hf => cases h; exact ⟨rfl, Or.inr ⟨v, hv, hf⟩⟩
    next hf =>
      split at h
      · cases h
      · split at h <;> cases h

theorem ensureFold_ok_parts (attrs : Attrs) (l : List String) (fs fs' : List String)
    (hok : foldE (ensureOne attrs) fs l = .ok fs') :
    (∀ q, pathExists fs q = true → pathExists fs' q = true)
    ∧ (∀ a ∈ l, ∃ v p, attrs a = some v ∧ v.pyFalsy = false ∧ valueStr v = some p
        ∧ pathExists fs' p = true) := by
  induction l generalizing fs with
  | nil => cases hok; exact ⟨fun q hq => hq, by simp⟩
  | cons a l ih =>
    simp only [foldE] at hok
    cases h : ensureOne attrs fs a with
    | error e => rw [h] at hok; cases hok
    | ok fs1 =>
      rw [h] at hok
      obtain ⟨hmono, hall⟩ := ih fs1 hok
      obtain ⟨v, p, hv, hf, hp, hex, hmono1, _⟩ := ensureOne_ok_parts attrs fs a fs1 h
      refine ⟨fun q hq => hmono q (hmono1 q hq), ?_⟩
      intro a' ha'
      rcases List.mem_cons.mp ha' with rfl | ha''
      · exact ⟨v, p, hv, hf, hp, hmono p hex⟩
      · exact hall a' ha''

theorem ensureFold_untouched (attrs : Attrs) (l : List String) (fs : List String)
    (hall : ∀ a ∈ l, ∃ v p, attrs a = some v ∧ v.pyFalsy = false
      ∧ valueStr v = some p ∧ pathExists fs p = true) :
    foldE (ensureOne attrs) fs l = .ok fs := by
  induction l with
  | nil => rfl
  | cons a l ih =>
    obtain ⟨v, p, hv, hf, hp, hex⟩ := hall a (List.mem_cons_self _ _)
    simp only [foldE, ensureOne_of_exists attrs fs a v p hv hf hp hex]
    exact ih (fun a' ha' => hall a' (List.mem_cons_of_mem _ ha'))

theorem ensureFold_error_missing (attrs : Attrs) (l : List String) (fs : List String)
    (n : String)
    (herr : foldE (ensureOne attrs) fs l = .error (.missingAttribute n)) :
    n ∈ l ∧ (attrs n = none ∨ ∃ v, attrs n = some v ∧ v.pyFalsy = true) := by
  induction l generalizing fs with
  | nil => cases herr
  | cons a l ih =>
    simp only [foldE] at herr
    cases h : ensureOne attrs fs a with
    | error e =>
      rw [h] at herr
      injection herr with he
      subst he
      obtain ⟨rfl, hrest⟩ := ensureOne_error_missing attrs fs a n h
      exact ⟨List.mem_cons_self _ _, hrest⟩
    | ok fs1 =>
      rw [h] at herr
      obtain ⟨hmem, hrest⟩ := ih fs1 herr
      exact ⟨List.mem_cons_of_mem _ hmem, hrest⟩

theorem ensureOne_ok_of_proper (attrs : Attrs) (fs : List String) (a : String)
    (v : Value) (p : String) (hv : attrs a = some v) (hf : v.pyFalsy = false)
    (hp : valueStr v = some p) : ∃ fs1, ensureOne attrs fs a = .ok fs1 := by
  unfold ensureOne
  rw [hv]
  simp only [hf, Bool.false_eq_true, if_false, hp]
  by_cases hex : pathExists fs p = true
  · exact ⟨fs, by rw [if_pos hex]⟩
  · exact ⟨makedirs p fs, by rw [if_neg hex]⟩

theorem ensureOne_error_of_missing (attrs : Attrs) (fs : List String) (a : String)
    (hmiss : attrs a = none ∨ ∃ v, attrs a = some v ∧ v.pyFalsy = true) :
    ensureOne attrs fs a = .error (.missingAttribute a) := by
  unfold ensureOne
  rcases hmiss with hn | ⟨v, hv, hf⟩
  · rw [hn]
  · rw [hv]
    simp only [hf, if_true]

theorem ensureFold_ok_of_proper (attrs : Attrs) (l : List String) (fs : List String)
    (hall : ∀ b ∈ l, ∃ v p, attrs b = some v ∧ v.pyFalsy = false ∧ valueStr v = some p) :
    ∃ fs1, foldE (ensureOne attrs) fs l = .ok fs1 := by
  induction l generalizing fs with
  | nil => exact ⟨fs, rfl⟩
  | cons b l ih =>
    obtain ⟨v, p, hv, hf, hp⟩ := hall b (List.mem_cons_self _ _)
    obtain ⟨fs1, h1⟩ := ensureOne_ok_of_proper attrs fs b v p hv hf hp
    obtain ⟨fs2, h2⟩ := ih fs1 (fun b' hb' => hall b' (List.mem_cons_of_mem _ hb'))
    exact ⟨fs2, by simp only [foldE, h1]; exact h2⟩

/-- Claim C8: after the merge, each of `logs_path`, `download_path`,
`config_path` must be bound to a truthy (non-empty) value — a missing or
falsy one makes the check fail with the missing-attribute error naming it
(provided the attributes checked before it are proper) — and on success every
one of the three directories exists; an already-existing directory is left
untouched (the file-system state is unchanged when all three exist), and the
creation operation `makedirs` creates the directory together with its
parents. -/
theorem required_paths_checked_and_created (attrs : Attrs) (fs : List String) :
    (∀ fs', ensureRequiredPathsExist attrs fs = .ok fs' →
      (∀ a ∈ requiredPathAttrs, ∃ v p, attrs a = some v ∧ v.pyFalsy = false
          ∧ valueStr v = some p ∧ pathExists fs' p = true)
      ∧ (∀ q, pathExists fs q = true → pathExists fs' q = true))
    ∧ ((∀ a ∈ requiredPathAttrs, ∃ v p, attrs a = some v ∧ v.pyFalsy = false
          ∧ valueStr v = some p ∧ pathExists fs p = true) →
        ensureRequiredPathsExist attrs fs = .ok fs)
    ∧ (∀ a ∈ requiredPathAttrs,
        (attrs a = none ∨ (∃ v, attrs a = some v ∧ v.pyFalsy = true)) →
        ∀ fs', ensureRequiredPathsExist attrs fs ≠ .ok fs')
    ∧ (∀ l1 a l2, requiredPathAttrs = l1 ++ a :: l2 →
        (∀ b ∈ l1, ∃ v p, attrs b = some v ∧ v.pyFalsy = false ∧ valueStr v = some p) →
        (attrs a = none ∨ (∃ v, attrs a = some v ∧ v.pyFalsy = true)) →
        ensureRequiredPathsExist attrs fs = .error (.missingAttribute a))
    ∧ (∀ p fs0, pathExists (makedirs p fs0) p = true
        ∧ ∀ q ∈ parentPaths p, pathExists (makedirs p fs0) q = true) := by
  refine ⟨?_, ?_, ?_, ?_, ?_⟩
  · intro fs' hok
    obtain ⟨hmono, hall⟩ := ensureFold_ok_parts attrs requiredPathAttrs fs fs' hok
    exact ⟨hall, hmono⟩
  · intro hall
    exact ensureFold_untouched attrs requiredPathAttrs fs hall
  · intro a ha hmiss fs' hok
    obtain ⟨hmono, hall⟩ := ensureFold_ok_parts attrs requiredPathAttrs fs fs' hok
    obtain ⟨v, p, hv, hf, _, _⟩ := hall a ha
    rcases hmiss with hn | ⟨v', hv', hf'⟩
    · rw [hn] at hv; cases hv
    · rw [hv'] at hv
      injection hv with hveq
      rw [← hveq] at hf
      rw [hf'] at hf
      cases hf
  · intro l1 a l2 hsplit hproper hmiss
    unfold ensureRequiredPathsExist
    rw [hsplit, foldE_append]
    obtain ⟨fsmid, hmid⟩ := ensureFold_ok_of_proper attrs l1 fs hproper
    rw [hmid]
    simp only [foldE]
    rw [ensureOne_error_of_missing attrs fsmid a hmiss]
  · intro p fs0
    constructor
    · simp [pathExists, makedirs]
    · intro q hq
      simp only [pathExists, makedirs, List.any_cons, List.any_append, Bool.or_eq_true]
      have hpar : ((parentPaths p).any fun q1 => q1.data == q.data) = true := by
        rw [List.any_eq_true]
        exact ⟨q, hq, by simp⟩
      tauto

theorem required_paths_checked_and_created_witness :
    ensureRequiredPathsExist
      (fun n => if n = "logs_path" then some (Value.vbstr "/a/l")
        else if n = "download_path" then some (Value.vbstr "/a/d")
        else if n = "config_path" then some (Value.vbstr "/a/l") else none)
      ["/a/l", "/a/d"]
    = .ok ["/a/l", "/a/d"] := by
  apply (required_paths_checked_and_created
    (fun n => if n = "logs_path" then some (Value.vbstr "/a/l")
      else if n = "download_path" then some (Value.vbstr "/a/d")
      else if n = "config_path" then some (Value.vbstr "/a/l") else none)
    ["/a/l", "/a/d"]).2.1
  intro a ha
  fin_cases ha
  · exact ⟨Value.vbstr "/a/l", "/a/l", by decide, rfl, rfl, by decide⟩
  · exact ⟨Value.vbstr "/a/d", "/a/d", by decide, rfl, rfl, by decide⟩
  · exact ⟨Value.vbstr "/a/l", "/a/l", by decide, rfl, rfl, by decide⟩

/-! ### Claim C10: an unbound logs_path raises AttributeError, not the
missing-attribute ConfigurationError -/

theorem setLogs_error_attr (env : List (String × String)) (attrs : Attrs) (e : PyErr)
    (h : setLogsAndConfigPath env attrs = .error e) : e = .attributeError "logs_path" := by
  unfold setLogsAndConfigPath at h
  split at h
  · cases h; rfl
  · cases h

theorem setLogs_ok_parts (env : List (String × String)) (attrs : Attrs) (a1 : Attrs)
    (h : setLogsAndConfigPath env attrs = .ok a1) :
    ∃ v0, attrs "logs_path" = some v0
      ∧ (a1 "logs_path" = some v0
        ∨ ∃ lp, a1 "logs_path" = some (.vbstr (pathJoin lp "Automation_Logs"))) := by
  unfold setLogsAndConfigPath at h
  split at h
  · cases h
  next v0 hv0 =>
    refine ⟨v0, hv0, ?_⟩
    cases h
    rw [setAttr_ne _ _ _ _ (by decide)]
    cases hA : envLookup env "ATF_RESULTSDIRECTORY" with
    | some lp =>
      simp only [hA]
      by_cases hlp : lp = ""
      · rw [if_pos hlp]; exact Or.inl hv0
      · rw [if_neg hlp]; exact Or.inr ⟨lp, setAttr_same _ _ _⟩
    | none =>
      simp only [hA]
      cases hT : envLookup env "TESTRESULTPATH" with
      | some lp =>
        simp only [hT]
        by_cases hlp : lp = ""
        · rw [if_pos hlp]; exact Or.inl hv0
        · rw [if_neg hlp]; exact Or.inr ⟨lp, setAttr_same _ _ _⟩
      | none =>
        simp only [hT]
        cases hB : envLookup env "BARLI_DEST_PATH" with
        | some lp =>
          simp only [hB]
          by_cases hlp : lp = ""
          · rw [if_pos hlp]; exact Or.inl hv0
          · rw [if_neg hlp]; exact Or.inr ⟨lp, setAttr_same _ _ _⟩
        | none =>
          simp only [hB]
          exact Or.inl hv0

theorem pathJoin_automation_ne_empty (s : String) :
    pathJoin s "Automation_Logs" ≠ "" := by
  unfold pathJoin
  split
  · decide
  split
  · intro h
    have h2 := congrArg String.data h
    simp [String.data_append] at h2
  · intro h
    have h2 := congrArg String.data h
    simp [String.data_append] at h2

/-- Claim C10: when the merged attribute set contains no `logs_path` at all,
the runtime-path stage fails with the raw `AttributeError` from the unguarded
`getattr`, before the required-attribute check runs; the documented
missing-attribute error for `logs_path` is reachable only when `logs_path`
is bound to a falsy (e.g. empty-string) value. -/
theorem missing_logs_path_attribute_error (env : List (String × String))
    (attrs : Attrs) (fs : List String) :
    (attrs "logs_path" = none →
      deriveRuntimePaths env attrs fs = .error (.attributeError "logs_path"))
    ∧ (deriveRuntimePaths env attrs fs = .error (.missingAttribute "logs_path") →
        ∃ v, attrs "logs_path" = some v ∧ v.pyFalsy = true) := by
  constructor
  · intro h0
    unfold deriveRuntimePaths setLogsAndConfigPath
    rw [h0]
  · intro herr
    unfold deriveRuntimePaths at herr
    cases hsl : setLogsAndConfigPath env attrs with
    | error e =>
      simp only [hsl] at herr
      injection herr with he
      rw [setLogs_error_attr env attrs e hsl] at he
      cases he
    | ok a1 =>
      simp only [hsl] at herr
      cases hen : ensureRequiredPathsExist a1 fs with
      | ok fs2 => simp only [hen] at herr; cases herr
      | error e2 =>
        simp only [hen] at herr
        injection herr with he2
        subst he2
        obtain ⟨_, hfals⟩ :=
          ensureFold_error_missing a1 requiredPathAttrs fs "logs_path" hen
        obtain ⟨v0, hv0, hlogs⟩ := setLogs_ok_parts env attrs a1 hsl
        rcases hlogs with hsame | ⟨lp, hjoin⟩
        · rcases hfals with hn | ⟨v, hv, hf⟩
          · rw [hsame] at hn; cases hn
          · rw [hsame] at hv
            injection hv with hveq
            exact ⟨v0, hv0, hveq ▸ hf⟩
        · rcases hfals with hn | ⟨v, hv, hf⟩
          · rw [hjoin] at hn; cases hn
          · rw [hjoin] at hv
            injection hv with hveq
            exfalso
            rw [← hveq] at hf
            unfold Value.pyFalsy at hf
            exact pathJoin_automation_ne_empty lp (eq_of_beq hf)

theorem missing_logs_path_attribute_error_witness :
    deriveRuntimePaths [] (fun _ => none) [] = .error (.attributeError "logs_path")
    ∧ ∃ v, (fun n => if n = "logs_path" then some (Value.vustr "") else none : Attrs)
        "logs_path" = some v ∧ v.pyFalsy = true := by
  constructor
  · exact (missing_logs_path_attribute_error [] (fun _ => none) []).1 rfl
  · exact (missing_logs_path_attribute_error []
      (fun n => if n = "logs_path" then some (Value.vustr "") else none) []).2 rfl

end Config
